import Mathlib

/-!
# Shallow embedding of the `tag-images` SVG analysis core

This file embeds, in Lean 4, the analysis core of the `tag-images`
repository: the contour shape classifier and category scorer of
`src/svg_analyzer.py` (`SVGAnalyzer`), and the training-label and
prediction logic of `src/ml_model.py` (`SVGTypingModel`).

Modelling conventions:
* Python floats become exact rationals (`ℚ`); the scores, thresholds and
  ratios in the source are small exact decimals, so this is faithful.
* Python exceptions become `Except String` values: a raised exception is
  an `Except.error`, a `try/except` boundary is a `match` on it.
* Python dicts that are only built up and read back become association
  lists (`List (String × α)`) in insertion order, matching the
  insertion-ordered iteration of Python dicts.
* The rasterizer (`cairosvg`/`cv2`) is not re-implemented: the functions
  below take its *result* (shape counts, contour features, per-head
  probability vectors) as input, exactly at the boundary where the
  source's own logic starts.
-/

namespace SVGAnalyzer

/-- Test whether the character list `p` is a prefix of `s`. -/
def hasPrefixL : List Char → List Char → Bool
  | [], _ => true
  | _ :: _, [] => false
  | a :: p, b :: s => a == b && hasPrefixL p s

/-- Test whether `tok` occurs as a contiguous sublist of `s`. -/
def containsSubL (tok : List Char) : List Char → Bool
  | [] => hasPrefixL tok []
  | c :: rest => hasPrefixL tok (c :: rest) || containsSubL tok rest

/-- Python's substring containment `tok in name` on strings. -/
def strContains (name tok : String) : Bool :=
  containsSubL tok.data name.data

/-- The four shape buckets of `SVGAnalyzer._detect_shapes`. -/
inductive ShapeKind
  | circle
  | triangle
  | rectangle
  | other
  deriving DecidableEq, Repr

/-- Geometric descriptors computed for one surviving contour in
`_detect_shapes` (src/svg_analyzer.py lines 87-130): circularity
`4·π·area/perimeter²`, convex-hull solidity, fitted-ellipse minor/major
axis ratio (`0` when the contour has fewer than 5 points), the vertex
count of the `approxPolyDP` polygon at tolerance `0.02 × perimeter`, and
the min/max side ratio of the minimum-area bounding rectangle. -/
structure ContourFeatures where
  circularity : ℚ
  solidity : ℚ
  axisRatioVal : ℚ
  vertices : ℕ
  aspectRatioVal : ℚ
  deriving DecidableEq, Repr

/-- The classification chain of `_detect_shapes`
(src/svg_analyzer.py lines 112-138): circle test first, then polygon
vertex analysis for triangles and rectangles, `other` as fallback. -/
def classifyContour (f : ContourFeatures) : ShapeKind :=
  if (f.circularity > 0.75 ∧ f.solidity > 0.85) ∨
      (f.axisRatioVal > 0.85 ∧ f.solidity > 0.9) then
    ShapeKind.circle
  else if f.vertices = 3 ∨ (f.vertices = 4 ∧ f.aspectRatioVal < 0.6) then
    ShapeKind.triangle
  else if (f.vertices = 4 ∧ f.aspectRatioVal > 0.7) ∨
      (f.vertices ≤ 6 ∧ f.aspectRatioVal > 0.8) then
    ShapeKind.rectangle
  else
    ShapeKind.other

/-- The `shapes` tally returned by `_detect_shapes`. -/
structure ShapeCounts where
  circles : ℕ
  rectangles : ℕ
  triangles : ℕ
  other : ℕ
  deriving DecidableEq, Repr

/-- The total `sum(shapes.values())` in `analyze_svg`. -/
def ShapeCounts.total (s : ShapeCounts) : ℕ :=
  s.circles + s.rectangles + s.triangles + s.other

/-- The tally `unique_shapes = sum(1 for count in shapes.values() if count > 0)`
(src/svg_analyzer.py line 191). -/
def ShapeCounts.uniqueShapes (s : ShapeCounts) : ℕ :=
  (if s.circles > 0 then 1 else 0) + (if s.rectangles > 0 then 1 else 0) +
    (if s.triangles > 0 then 1 else 0) + (if s.other > 0 then 1 else 0)

/-- Folding `classifyContour` over the surviving contours into the
four buckets, as the loop of `_detect_shapes` does. -/
def countShapes : List ContourFeatures → ShapeCounts
  | [] => ⟨0, 0, 0, 0⟩
  | f :: fs =>
    let s := countShapes fs
    match classifyContour f with
    | ShapeKind.circle => { s with circles := s.circles + 1 }
    | ShapeKind.triangle => { s with triangles := s.triangles + 1 }
    | ShapeKind.rectangle => { s with rectangles := s.rectangles + 1 }
    | ShapeKind.other => { s with other := s.other + 1 }

/-- The per-category score of `analyze_svg`
(src/svg_analyzer.py lines 154-211): the branch chain keyed off
substring tokens of the (lower-cased) category name.  Called only when
`total_shapes > 0` in the source. -/
def categoryScore (name : String) (shapes : ShapeCounts) : ℚ :=
  if strContains name "round" || strContains name "circle" then
    if shapes.circles > 0 then
      let circleFrac : ℚ := (shapes.circles : ℚ) / (shapes.total : ℚ)
      if circleFrac = 1 then 1
      else if circleFrac > 0.5 then 0.9
      else 0.7 * circleFrac
    else 0
  else if strContains name "square" then
    if shapes.rectangles > 0 then
      let rectFrac : ℚ := (shapes.rectangles : ℚ) / (shapes.total : ℚ)
      if rectFrac = 1 then 1
      else if rectFrac > 0.5 then 0.9
      else 0.7 * rectFrac
    else 0
  else if strContains name "triangle" then
    if shapes.triangles > 0 then
      let triFrac : ℚ := (shapes.triangles : ℚ) / (shapes.total : ℚ)
      if triFrac = 1 then 1
      else if triFrac > 0.5 then 0.9
      else 0.7 * triFrac
    else 0
  else if strContains name "complex" || strContains name "shape" then
    if shapes.uniqueShapes > 1 then
      let varietyScore : ℚ := min 1 ((shapes.uniqueShapes : ℚ) / 3)
      let countScore : ℚ := min 1 ((shapes.total : ℚ) / 3)
      (varietyScore + countScore) / 2
    else 0
  else if strContains name "text" then 0.1
  else if strContains name "heart" then
    if shapes.other > 0 ∧ shapes.total ≤ 2 then 0.6 else 0
  else if strContains name "arrow" then
    if shapes.other > 0 ∧ shapes.total ≤ 3 then 0.6 else 0
  else 0

/-- The scorer `SVGAnalyzer.analyze_svg` (src/svg_analyzer.py lines 142-217).
`detection` is the outcome of `_svg_to_image` + `_detect_shapes`: an
`Except.error` models any exception raised inside the `try` block
(rasterization, contour extraction or scoring), which the source
catches and converts to the empty score map.  `categoryNames` are the
(lower-cased) keys of `self.category_keywords`. -/
def analyze_svg (detection : Except String ShapeCounts)
    (categoryNames : List String) : List (String × ℚ) :=
  match detection with
  | Except.error _ => []
  | Except.ok shapes =>
    if shapes.total = 0 then
      categoryNames.map (fun n => (n, (0 : ℚ)))
    else
      categoryNames.map (fun n => (n, categoryScore n shapes))

/-- A configured category as read from `categories.json`: lower-cased
name and lower-cased keyword list
(src/svg_analyzer.py lines 24-27). -/
structure Category where
  name : String
  keywords : List String
  deriving DecidableEq, Repr

/-- The loader `SVGAnalyzer.update_categories_from_json`
(src/svg_analyzer.py lines 14-33): `loaded` is the outcome of opening
and JSON-decoding the categories file; `FileNotFoundError` and
`JSONDecodeError` (the `Except.error` case) fall back to the empty
category set. -/
def update_categories_from_json (loaded : Except String (List Category)) :
    List Category :=
  match loaded with
  | Except.error _ => []
  | Except.ok cats => cats

/-- Python `max(items, key=lambda x: x[1])` over a non-empty association
list: keeps the current best on ties, so it returns the first entry with
the maximal score. -/
def maxBySnd : (String × ℚ) → List (String × ℚ) → (String × ℚ)
  | best, [] => best
  | best, x :: xs => maxBySnd (if x.2 > best.2 then x else best) xs

/-- The selector `SVGAnalyzer.suggest_category` (src/svg_analyzer.py lines 219-225):
empty score map yields `(none, 0)`, otherwise the first maximal entry. -/
def suggest_category (detection : Except String ShapeCounts)
    (categoryNames : List String) : Option String × ℚ :=
  match analyze_svg detection categoryNames with
  | [] => (none, 0)
  | x :: xs =>
    let best := maxBySnd x xs
    (some best.1, best.2)

/-- Modelled from the spec: the Keyword Matcher (spec section 4.3) has no
implementation under src/ (no keyword scoring occurs in
`svg_analyzer.py`; `category_keywords` is loaded but unused).  Per-char
lower-casing for the case-insensitive matching. -/
def toLowerL (s : List Char) : List Char :=
  s.map Char.toLower

/-- Modelled from the spec: a word character for standard word-break
semantics (letters, digits, underscore). -/
def isWordChar (c : Char) : Bool :=
  c.isAlphanum || c == '_'

/-- Here `dropMatch p s` returns the remainder of `s` after a prefix match of
`p`, or `none` when `p` is not a prefix of `s`. -/
def dropMatch : List Char → List Char → Option (List Char)
  | [], s => some s
  | _ :: _, [] => none
  | a :: p, b :: s => if a == b then dropMatch p s else none

/-- Modelled from the spec: a word boundary before a match position
(start of text, or a non-word character). -/
def boundaryBefore : Option Char → Bool
  | none => true
  | some c => !isWordChar c

/-- Modelled from the spec: a word boundary after a match (end of text,
or a non-word character). -/
def boundaryAfter : List Char → Bool
  | [] => true
  | c :: _ => !isWordChar c

/-- Modelled from the spec: count the whole-word (word-boundary
delimited) occurrences of `kw` in the text, walking every position;
`prev` is the character just before the current position. -/
def countWordOcc (kw : List Char) : Option Char → List Char → ℕ
  | _, [] => 0
  | prev, c :: rest =>
    let hit := boundaryBefore prev &&
      (match dropMatch kw (c :: rest) with
        | some rem => boundaryAfter rem
        | none => false)
    (if hit then 1 else 0) + countWordOcc kw (some c) rest

/-- Modelled from the spec: the total match count of the Keyword Matcher
(spec section 4.3) — occurrence counts summed across all of the
category's keywords, case-insensitively. -/
def totalKeywordMatches (text : String) : List String → ℕ
  | [] => 0
  | kw :: kws =>
    countWordOcc (toLowerL kw.data) none (toLowerL text.data) +
      totalKeywordMatches text kws

/-- Modelled from the spec: `keywordScore(markupText, category)` of the
Keyword Matcher (spec section 4.3), absent from src/:
`min(1.0, totalMatches × 0.2)`. -/
def keywordScore (text : String) (keywords : List String) : ℚ :=
  min 1 ((totalKeywordMatches text keywords : ℚ) * 0.2)

/-- Modelled from the spec: the Strategy A heuristic scorer
(spec section 4.4) has no implementation under src/.  It produces one
score entry per configured category; the per-category combination of
keyword/complexity/structure sub-scores is taken as a parameter, since
only the shape of the score map matters for the claims below. -/
def strategyA_analyze (score : Category → ℚ) (cats : List Category) :
    List (String × ℚ) :=
  cats.map (fun c => (c.name, score c))

end SVGAnalyzer

namespace SVGTypingModel

/-- One option of a labeling step: value string and order index
(`opt['value']`, `opt['order']` in src/ml_model.py). -/
structure StepOption where
  value : String
  order : ℕ
  deriving DecidableEq, Repr

/-- One configured labeling step (`self.typing_steps` values in
src/ml_model.py): identifier, display name, position order, and the
configured option list in configuration order. -/
structure Step where
  id : String
  name : String
  order : ℕ
  options : List StepOption
  deriving DecidableEq, Repr

/-- Stable insertion of `x` into a list sorted by the key `key`:
equal keys keep `x` first, matching Python's stable `sorted`. -/
def insertByKey {α : Type} (key : α → ℕ) (x : α) : List α → List α
  | [] => [x]
  | y :: ys => if key x ≤ key y then x :: y :: ys else y :: insertByKey key x ys

/-- Stable sort by a natural-number key, modelling Python's
`sorted(xs, key=...)`. -/
def sortByKey {α : Type} (key : α → ℕ) : List α → List α
  | [] => []
  | x :: xs => insertByKey key x (sortByKey key xs)

/-- Accumulator for `np.argmax`: walks the tail keeping the first
maximal index seen so far. -/
def argmaxAux : ℕ → ℕ → ℚ → List ℚ → ℕ
  | _, best, _, [] => best
  | i, best, bv, x :: xs =>
    if x > bv then argmaxAux (i + 1) i x xs else argmaxAux (i + 1) best bv xs

/-- The index `np.argmax` returns: the first maximal index of the list
(`0` on the empty list). -/
def argmax : List ℚ → ℕ
  | [] => 0
  | x :: xs => argmaxAux 1 0 x xs

/-- The list `option_values` of src/ml_model.py lines 162 and 259: the
option values sorted by their order index. -/
def optionValues (step : Step) : List String :=
  (sortByKey (fun o => o.order) step.options).map (fun o => o.value)

/-- The value `selected_value = option_values[pred_idx]` with
`pred_idx = np.argmax(pred_probs)` (src/ml_model.py lines 254-260). -/
def selectedValue (step : Step) (probs : List ℚ) : String :=
  (optionValues step).getD (argmax probs) ""

/-- The default `step.options[0]['value']`: the first *configured*
option (the raw options list, not the order-sorted one), used as the
default label in `prepare_data` (src/ml_model.py lines 152 and 159). -/
def firstOptionValue (step : Step) : String :=
  match step.options with
  | [] => ""
  | o :: _ => o.value

/-- The results key used for the cutout step at a given cutout index:
`f"cutout_{i}" if i > 1 else "cutout"` (src/ml_model.py lines 151, 264). -/
def cutoutKey (cutoutIndex : ℕ) : String :=
  if cutoutIndex > 1 then "cutout_" ++ toString cutoutIndex else "cutout"

/-- The results key used for the additional-cutout flag step:
`f"additional_cutout_{i}"` (src/ml_model.py lines 155, 269). -/
def additionalCutoutKey (cutoutIndex : ℕ) : String :=
  "additional_cutout_" ++ toString cutoutIndex

/-- The label value chosen for one step of one training row in
`SVGTypingModel.prepare_data` (src/ml_model.py lines 148-159): the
answer looked up in the example's results mapping, with the step's
first configured option as default — except for the additional-cutout
step, whose default is the literal `"Nee"`. -/
def labelValue (results : List (String × String)) (cutoutIndex : ℕ)
    (step : Step) : String :=
  if step.id == "cutout" then
    (results.lookup (cutoutKey cutoutIndex)).getD (firstOptionValue step)
  else if step.id == "additional_cutout" then
    (results.lookup (additionalCutoutKey cutoutIndex)).getD "Nee"
  else
    (results.lookup step.id).getD (firstOptionValue step)

/-- The single pass of `SVGTypingModel.predict` over the order-sorted
steps paired with their output-head probability vectors
(src/ml_model.py lines 252-279), accumulating the results mapping and
threading `cutout_index`, which increments when the additional-cutout
head predicts `"Ja"`. -/
def predictLoop :
    List (Step × List ℚ) → ℕ → List (String × String) → List (String × String)
  | [], _, acc => acc
  | (step, probs) :: rest, cutoutIndex, acc =>
    let selected := selectedValue step probs
    if step.id == "cutout" then
      predictLoop rest cutoutIndex (acc ++ [(cutoutKey cutoutIndex, selected)])
    else if step.id == "additional_cutout" then
      predictLoop rest (if selected == "Ja" then cutoutIndex + 1 else cutoutIndex)
        (acc ++ [(additionalCutoutKey cutoutIndex, selected)])
    else
      predictLoop rest cutoutIndex (acc ++ [(step.id, selected)])

/-- Direct-recursion presentation of the same single pass, used to state
properties of `predictLoop`. -/
def predictResultSpec : List (Step × List ℚ) → ℕ → List (String × String)
  | [], _ => []
  | (step, probs) :: rest, cutoutIndex =>
    let selected := selectedValue step probs
    if step.id == "cutout" then
      (cutoutKey cutoutIndex, selected) :: predictResultSpec rest cutoutIndex
    else if step.id == "additional_cutout" then
      (additionalCutoutKey cutoutIndex, selected) ::
        predictResultSpec rest
          (if selected == "Ja" then cutoutIndex + 1 else cutoutIndex)
    else
      (step.id, selected) :: predictResultSpec rest cutoutIndex

/-- The function `SVGTypingModel.predict` (src/ml_model.py lines 228-287).
`modelOutput` is `none` when `self.model is None` (no model trained or
loaded), in which case the source raises `ValueError("Model not trained
yet")` before entering its `try` block; otherwise it is the list of
per-head probability vectors `predictions[i][0]` that
`self.model.predict` returns for the rendered image, one per
order-sorted step. -/
def predict (modelOutput : Option (List (List ℚ))) (typingSteps : List Step) :
    Except String (List (String × String)) :=
  match modelOutput with
  | none => Except.error "Model not trained yet"
  | some preds =>
    Except.ok
      (predictLoop ((sortByKey (fun s => s.order) typingSteps).zip preds) 1 [])

end SVGTypingModel
namespace SVGAnalyzer

/-- The scoring rule the spec states for pure-ratio categories
(round/circle, square, triangle name tokens), phrased in the spec's own
terms over the matching and total shape counts: `1.0` when 100% of the
detected shapes match, `0.9` when more than half match, and
`0.7 × ratio` otherwise.  Stated separately from `categoryScore` so the
two can be compared. -/
def ratioScoreSpec (matching total : ℕ) : ℚ :=
  if matching = total then 1
  else if total < 2 * matching then 0.9
  else 0.7 * ((matching : ℚ) / (total : ℚ))

end SVGAnalyzer

section Theorems

open SVGAnalyzer SVGTypingModel

/-- C6: any exception raised inside the Strategy-B `try` block
(rasterization, contour extraction or shape scoring, modelled as the
`Except.error` detection outcome) is caught at the `analyze_svg`
boundary and converted to the empty score map, never propagated. -/
theorem analyze_svg_error_yields_empty :
    ∀ (err : String) (categoryNames : List String),
      analyze_svg (Except.error err) categoryNames = [] := by
  intro err categoryNames
  rfl

/-- C9: calling `predict` with no trained or loaded model
(`modelOutput = none`) raises the `"Model not trained yet"` error that
is reported to the caller, while a call with a loaded model never fails
for model-availability reasons: it returns an `Except.ok` result. -/
theorem predict_model_availability :
    ∀ typingSteps : List Step,
      predict none typingSteps = Except.error "Model not trained yet" ∧
      ∀ preds : List (List ℚ), ∃ r, predict (some preds) typingSteps = Except.ok r := by
  intro typingSteps
  exact ⟨rfl, fun preds => ⟨_, rfl⟩⟩

/-- C5: analyzing with an empty configured category set returns the
empty score map and (being a total function) never raises, whatever the
detection outcome; the same holds for the spec-modelled Strategy A
scorer, and a missing or unreadable category configuration falls back
to the empty category set and hence also yields the empty map. -/
theorem analyze_empty_category_set :
    ∀ detection : Except String ShapeCounts,
      analyze_svg detection [] = [] ∧
      (∀ err : String,
        analyze_svg detection
          ((update_categories_from_json (Except.error err)).map (fun c => c.name)) = []) ∧
      ∀ score : Category → ℚ, strategyA_analyze score [] = [] := by
  intro detection
  refine ⟨?_, fun err => ?_, fun score => rfl⟩ <;>
    cases detection with
    | error e => rfl
    | ok shapes =>
      simp only [analyze_svg, update_categories_from_json, List.map_nil]
      split <;> rfl

/-- C4 (spec-modelled, the Keyword Matcher is absent from src/): the
keyword score equals `min(1.0, totalMatches × 0.2)` where
`totalMatches` sums the case-insensitive whole-word occurrence counts
of the category's keywords in the markup text, and a category with an
empty keyword list scores `0`. -/
theorem keywordScore_formula (text : String) (keywords : List String) :
    keywordScore text keywords =
      min 1 ((totalKeywordMatches text keywords : ℚ) * 0.2) ∧
    (keywords = [] → keywordScore text keywords = 0) := by
  refine ⟨rfl, fun h => ?_⟩
  subst h
  show min 1 ((totalKeywordMatches text [] : ℚ) * 0.2) = 0
  norm_num [totalKeywordMatches]

/-- Witness for C4 at a concrete input: the empty keyword list scores
zero on a concrete markup text. -/
theorem keywordScore_formula_witness :
    keywordScore "<svg><circle r=5/></svg>" [] = 0 :=
  (keywordScore_formula "<svg><circle r=5/></svg>" []).2 rfl

/-- C8: the contour classifier labels a contour `circle` exactly under
the circularity/solidity or axis-ratio/solidity thresholds; otherwise
`triangle` exactly when the approximated polygon has 3 vertices or 4
with aspect ratio below 0.6; otherwise `rectangle` exactly when it has
4 vertices with aspect ratio above 0.7 or at most 6 with aspect ratio
above 0.8; and `other` in all remaining cases. -/
theorem classifyContour_characterization :
    ∀ f : ContourFeatures,
      (classifyContour f = ShapeKind.circle ↔
        ((f.circularity > 0.75 ∧ f.solidity > 0.85) ∨
          (f.axisRatioVal > 0.85 ∧ f.solidity > 0.9))) ∧
      (classifyContour f = ShapeKind.triangle ↔
        (¬((f.circularity > 0.75 ∧ f.solidity > 0.85) ∨
            (f.axisRatioVal > 0.85 ∧ f.solidity > 0.9)) ∧
          (f.vertices = 3 ∨ (f.vertices = 4 ∧ f.aspectRatioVal < 0.6)))) ∧
      (classifyContour f = ShapeKind.rectangle ↔
        (¬((f.circularity > 0.75 ∧ f.solidity > 0.85) ∨
            (f.axisRatioVal > 0.85 ∧ f.solidity > 0.9)) ∧
          ¬(f.vertices = 3 ∨ (f.vertices = 4 ∧ f.aspectRatioVal < 0.6)) ∧
          ((f.vertices = 4 ∧ f.aspectRatioVal > 0.7) ∨
            (f.vertices ≤ 6 ∧ f.aspectRatioVal > 0.8)))) ∧
      (classifyContour f = ShapeKind.other ↔
        (¬((f.circularity > 0.75 ∧ f.solidity > 0.85) ∨
            (f.axisRatioVal > 0.85 ∧ f.solidity > 0.9)) ∧
          ¬(f.vertices = 3 ∨ (f.vertices = 4 ∧ f.aspectRatioVal < 0.6)) ∧
          ¬((f.vertices = 4 ∧ f.aspectRatioVal > 0.7) ∨
            (f.vertices ≤ 6 ∧ f.aspectRatioVal > 0.8)))) := by
  intro f
  unfold classifyContour
  split_ifs with h1 h2 h3 <;> simp_all

/-- Counterexample for C2: on an image whose single detected shape is
one circle (one non-zero bucket), a category named `"shape"` scores
`0`, not the claimed average `(min 1 (1/3) + min 1 (1/3)) / 2 = 1/3`. -/
theorem categoryScore_complex_cex :
    categoryScore "shape" ⟨1, 0, 0, 0⟩ = 0 ∧
    (min 1 ((ShapeCounts.uniqueShapes ⟨1, 0, 0, 0⟩ : ℚ) / 3) +
        min 1 ((ShapeCounts.total ⟨1, 0, 0, 0⟩ : ℚ) / 3)) / 2 = 1 / 3 ∧
    (0 : ℚ) ≠ 1 / 3 := by
  refine ⟨by decide, ?_, by norm_num⟩
  norm_num [ShapeCounts.uniqueShapes, ShapeCounts.total]

/-- Counterexample for C3: a missing answer for the additional-cutout
step is labelled with the literal `"Nee"`, not with the step's first
configured option (here `"Ja"`). -/
theorem labelValue_additional_default_cex :
    labelValue [] 1 ⟨"additional_cutout", "Additional", 1, [⟨"Ja", 0⟩, ⟨"Nee", 1⟩]⟩ = "Nee" ∧
    firstOptionValue ⟨"additional_cutout", "Additional", 1, [⟨"Ja", 0⟩, ⟨"Nee", 1⟩]⟩ = "Ja" ∧
    ("Nee" : String) ≠ "Ja" := by
  refine ⟨rfl, rfl, by decide⟩

/-- Counterexample for C1: a model whose additional-cutout head predicts
the affirmative `"Ja"` still yields a single prediction round — the
result has exactly one entry per configured step and contains no
`cutout_2` or `additional_cutout_2` keys. -/
theorem predict_no_expansion_cex :
    predict (some [[1, 0], [0, 1]])
        [⟨"cutout", "Cutout", 0, [⟨"A", 0⟩, ⟨"B", 1⟩]⟩,
          ⟨"additional_cutout", "Additional", 1, [⟨"Nee", 0⟩, ⟨"Ja", 1⟩]⟩] =
      Except.ok [("cutout", "A"), ("additional_cutout_1", "Ja")] ∧
    List.lookup "cutout_2" [("cutout", "A"), ("additional_cutout_1", "Ja")] = none ∧
    List.lookup "additional_cutout_2"
      [("cutout", "A"), ("additional_cutout_1", "Ja")] = none := by
  refine ⟨by rfl, by decide, by decide⟩

/-- C3 (amended): when the example's results mapping contains no answer
for a step, the training label defaults to that step's first configured
option for the cutout step and for every ordinary step, but for the
additional-cutout step it defaults to the literal `"Nee"` regardless of
the step's configured options. -/
theorem labelValue_default_fill (results : List (String × String))
    (cutoutIndex : ℕ) (step : Step) :
    (step.id = "cutout" → results.lookup (cutoutKey cutoutIndex) = none →
      labelValue results cutoutIndex step = firstOptionValue step) ∧
    (step.id = "additional_cutout" →
      results.lookup (additionalCutoutKey cutoutIndex) = none →
      labelValue results cutoutIndex step = "Nee") ∧
    (step.id ≠ "cutout" → step.id ≠ "additional_cutout" →
      results.lookup step.id = none →
      labelValue results cutoutIndex step = firstOptionValue step) := by
  refine ⟨fun h hl => ?_, fun h hl => ?_, fun h1 h2 hl => ?_⟩
  · simp [labelValue, h, hl]
  · simp [labelValue, h, hl]
  · have e1 : (step.id == "cutout") = false := by
      simpa using h1
    have e2 : (step.id == "additional_cutout") = false := by
      simpa using h2
    simp [labelValue, e1, e2, hl]

/-- Witness for C3 (amended) at a concrete input: an ordinary step with
no recorded answer is labelled with its first configured option. -/
theorem labelValue_default_fill_witness :
    labelValue [("other_step", "x")] 1
        ⟨"basic_shape", "Basic shape", 0, [⟨"Rectangle", 0⟩, ⟨"Circle", 1⟩]⟩ =
      "Rectangle" :=
  (labelValue_default_fill [("other_step", "x")] 1
      ⟨"basic_shape", "Basic shape", 0, [⟨"Rectangle", 0⟩, ⟨"Circle", 1⟩]⟩).2.2
    (by decide) (by decide) (by decide)

/-- C2 (amended): for a category whose name contains a `complex` or
`shape` token (and none of the earlier-matched round/circle/square/
triangle tokens), on an image with at least one detected shape the
Strategy-B score equals the average of the variety term
`min 1 (distinctNonZeroBuckets / 3)` and the count term
`min 1 (totalShapes / 3)` only when more than one shape bucket is
non-zero; with a single non-zero bucket the score is `0`. -/
theorem categoryScore_complex_requires_variety (name : String) (s : ShapeCounts)
    (htot : 0 < s.total)
    (htok : (strContains name "complex" || strContains name "shape") = true)
    (h1 : strContains name "round" = false)
    (h2 : strContains name "circle" = false)
    (h3 : strContains name "square" = false)
    (h4 : strContains name "triangle" = false) :
    categoryScore name s =
      if 1 < s.uniqueShapes then
        (min 1 ((s.uniqueShapes : ℚ) / 3) + min 1 ((s.total : ℚ) / 3)) / 2
      else 0 := by
  simp [categoryScore, htok, h1, h2, h3, h4]

/-- Witness for C2 (amended) at a concrete input: one circle and one
rectangle give the category `"shape"` the score
`(min 1 (2/3) + min 1 (2/3)) / 2 = 2/3`. -/
theorem categoryScore_complex_requires_variety_witness :
    categoryScore "shape" ⟨1, 1, 0, 0⟩ = 2 / 3 := by
  have h := categoryScore_complex_requires_variety "shape" ⟨1, 1, 0, 0⟩
    (by decide) (by decide) (by decide) (by decide) (by decide) (by decide)
  rw [h]
  norm_num [ShapeCounts.uniqueShapes, ShapeCounts.total]

/-- The guarded ratio chain of `analyze_svg` (outer positivity guard,
exact-one test, majority test, scaled fallback) agrees with the spec's
`ratioScoreSpec` whenever at least one shape was detected. -/
lemma ratioChain_eq_spec (c t : ℕ) (ht : 0 < t) :
    (if c > 0 then
      (if (c : ℚ) / (t : ℚ) = 1 then 1
        else if (c : ℚ) / (t : ℚ) > 0.5 then (0.9 : ℚ)
        else 0.7 * ((c : ℚ) / (t : ℚ)))
    else 0) = ratioScoreSpec c t := by
  have ht' : (0 : ℚ) < (t : ℚ) := by exact_mod_cast ht
  have htne : (t : ℚ) ≠ 0 := ne_of_gt ht'
  have heq1 : ((c : ℚ) / (t : ℚ) = 1) ↔ c = t := by
    rw [div_eq_one_iff_eq htne]
    exact_mod_cast Iff.rfl
  have hhalf : ((c : ℚ) / (t : ℚ) > 0.5) ↔ t < 2 * c := by
    rw [gt_iff_lt, show (0.5 : ℚ) = 1 / 2 by norm_num,
      div_lt_div_iff₀ (by norm_num) ht']
    constructor
    · intro hlt
      have hq : (t : ℚ) < 2 * (c : ℚ) := by linarith
      exact_mod_cast hq
    · intro hlt
      have hq : (t : ℚ) < 2 * (c : ℚ) := by exact_mod_cast hlt
      linarith
  rcases Nat.eq_zero_or_pos c with hc | hc
  · subst hc
    have h2 : ¬(t < 2 * 0) := by omega
    have h1 : (0 : ℕ) ≠ t := by omega
    simp [ratioScoreSpec, h1, h2]
  · rw [if_pos hc, ratioScoreSpec]
    by_cases hct : c = t
    · rw [if_pos (heq1.mpr hct), if_pos hct]
    · rw [if_neg (fun h => hct (heq1.mp h)), if_neg hct]
      by_cases hmaj : t < 2 * c
      · rw [if_pos (hhalf.mpr hmaj), if_pos hmaj]
      · rw [if_neg (fun h => hmaj (hhalf.mp h)), if_neg hmaj]

/-- C7: on any image with at least one detected shape, a category whose
name contains a `round`/`circle` token scores by the circle ratio rule
`ratioScoreSpec`; a `square`-token category (with no round/circle
token) scores the same rule on rectangles; a `triangle`-token category
(with no earlier token) scores it on triangles; in particular a
round/circle category scores `1` when the only detected shape is a
single circle. -/
theorem categoryScore_ratio_tokens (name : String) (s : ShapeCounts)
    (h : 0 < s.total) :
    ((strContains name "round" || strContains name "circle") = true →
      categoryScore name s = ratioScoreSpec s.circles s.total) ∧
    ((strContains name "round" || strContains name "circle") = false →
      strContains name "square" = true →
      categoryScore name s = ratioScoreSpec s.rectangles s.total) ∧
    ((strContains name "round" || strContains name "circle") = false →
      strContains name "square" = false →
      strContains name "triangle" = true →
      categoryScore name s = ratioScoreSpec s.triangles s.total) ∧
    ((strContains name "round" || strContains name "circle") = true →
      s.circles = 1 → s.total = 1 → categoryScore name s = 1) := by
  have hcirc : (strContains name "round" || strContains name "circle") = true →
      categoryScore name s = ratioScoreSpec s.circles s.total := by
    intro htok
    rw [show categoryScore name s =
        (if s.circles > 0 then
          (if (s.circles : ℚ) / (s.total : ℚ) = 1 then 1
            else if (s.circles : ℚ) / (s.total : ℚ) > 0.5 then (0.9 : ℚ)
            else 0.7 * ((s.circles : ℚ) / (s.total : ℚ)))
        else 0) by simp [categoryScore, htok]]
    exact ratioChain_eq_spec s.circles s.total h
  refine ⟨hcirc, ?_, ?_, ?_⟩
  · intro htok hsq
    rw [show categoryScore name s =
        (if s.rectangles > 0 then
          (if (s.rectangles : ℚ) / (s.total : ℚ) = 1 then 1
            else if (s.rectangles : ℚ) / (s.total : ℚ) > 0.5 then (0.9 : ℚ)
            else 0.7 * ((s.rectangles : ℚ) / (s.total : ℚ)))
        else 0) by simp [categoryScore, htok, hsq]]
    exact ratioChain_eq_spec s.rectangles s.total h
  · intro htok hsq htri
    rw [show categoryScore name s =
        (if s.triangles > 0 then
          (if (s.triangles : ℚ) / (s.total : ℚ) = 1 then 1
            else if (s.triangles : ℚ) / (s.total : ℚ) > 0.5 then (0.9 : ℚ)
            else 0.7 * ((s.triangles : ℚ) / (s.total : ℚ)))
        else 0) by simp [categoryScore, htok, hsq, htri]]
    exact ratioChain_eq_spec s.triangles s.total h
  · intro htok hc ht
    rw [hcirc htok, hc, ht]
    norm_num [ratioScoreSpec]

/-- Witness for C7 at a concrete input: the category `"round"` scores
`1` on an image whose only detected shape is one circle. -/
theorem categoryScore_ratio_tokens_witness :
    categoryScore "round" ⟨1, 0, 0, 0⟩ = 1 :=
  (categoryScore_ratio_tokens "round" ⟨1, 0, 0, 0⟩ (by decide)).2.2.2
    (by decide) rfl rfl

/-- Inserting one element grows the length by one. -/
lemma insertByKey_length {α : Type} (key : α → ℕ) (x : α) :
    ∀ l : List α, (insertByKey key x l).length = l.length + 1 := by
  intro l
  induction l with
  | nil => rfl
  | cons y ys ih =>
    rw [insertByKey]
    split
    · rfl
    · simp [ih]

/-- The stable sort keeps the number of elements. -/
lemma sortByKey_length {α : Type} (key : α → ℕ) :
    ∀ l : List α, (sortByKey key l).length = l.length := by
  intro l
  induction l with
  | nil => rfl
  | cons y ys ih =>
    rw [sortByKey, insertByKey_length, ih, List.length_cons]

/-- The accumulator form of the prediction pass equals the accumulator
prepended to the direct-recursion form. -/
lemma predictLoop_append (l : List (Step × List ℚ)) :
    ∀ (idx : ℕ) (acc : List (String × String)),
      predictLoop l idx acc = acc ++ predictResultSpec l idx := by
  induction l with
  | nil =>
    intro idx acc
    simp [predictLoop, predictResultSpec]
  | cons p rest ih =>
    intro idx acc
    obtain ⟨step, probs⟩ := p
    by_cases hc : (step.id == "cutout") = true
    · simp [predictLoop, predictResultSpec, hc, ih]
    · by_cases ha : (step.id == "additional_cutout") = true
      · simp [predictLoop, predictResultSpec, hc, ha, ih]
      · simp [predictLoop, predictResultSpec, hc, ha, ih]

/-- The single prediction pass produces exactly one result entry per
step/head pair. -/
lemma predictResultSpec_length (l : List (Step × List ℚ)) :
    ∀ idx : ℕ, (predictResultSpec l idx).length = l.length := by
  induction l with
  | nil =>
    intro idx
    rfl
  | cons p rest ih =>
    intro idx
    obtain ⟨step, probs⟩ := p
    by_cases hc : (step.id == "cutout") = true
    · simp [predictResultSpec, hc, ih]
    · by_cases ha : (step.id == "additional_cutout") = true
      · simp [predictResultSpec, hc, ha, ih]
      · simp [predictResultSpec, hc, ha, ih]

/-- The values of the single prediction pass are exactly the
argmax-selected option values of the step/head pairs, in order; the
threaded cutout index affects keys only. -/
lemma predictResultSpec_map_snd (l : List (Step × List ℚ)) :
    ∀ idx : ℕ,
      (predictResultSpec l idx).map Prod.snd =
        l.map (fun p => selectedValue p.1 p.2) := by
  induction l with
  | nil =>
    intro idx
    rfl
  | cons p rest ih =>
    intro idx
    obtain ⟨step, probs⟩ := p
    by_cases hc : (step.id == "cutout") = true
    · simp [predictResultSpec, hc, ih]
    · by_cases ha : (step.id == "additional_cutout") = true
      · simp [predictResultSpec, hc, ha, ih]
      · simp [predictResultSpec, hc, ha, ih]

/-- C1 (amended): with a loaded model (one probability head per
configured step), `predict` performs exactly one pass over the
order-sorted steps: its result is the direct per-step list
`predictResultSpec` started at cutout index `1`, it contains exactly
one entry per configured step, and the entry values are the
argmax-selected option values of the steps' heads.  The cutout index
only renames the keys of the cutout and additional-cutout entries; no
additional sub-item round is predicted after an affirmative
additional-cutout prediction. -/
theorem predict_single_pass (typingSteps : List Step) (preds : List (List ℚ))
    (h : preds.length = typingSteps.length) :
    predict (some preds) typingSteps =
      Except.ok (predictResultSpec
        ((sortByKey (fun st => st.order) typingSteps).zip preds) 1) ∧
    (predictResultSpec
        ((sortByKey (fun st => st.order) typingSteps).zip preds) 1).length =
      typingSteps.length ∧
    (predictResultSpec
          ((sortByKey (fun st => st.order) typingSteps).zip preds) 1).map
        Prod.snd =
      ((sortByKey (fun st => st.order) typingSteps).zip preds).map
        (fun p => selectedValue p.1 p.2) := by
  refine ⟨?_, ?_, predictResultSpec_map_snd _ _⟩
  · rw [predict, predictLoop_append]
    rfl
  · rw [predictResultSpec_length, List.length_zip, sortByKey_length, h,
      min_self]

/-- Witness for C1 (amended) at a concrete input: two configured steps
with two heads give a result with exactly two entries. -/
theorem predict_single_pass_witness :
    (predictResultSpec
        ((sortByKey (fun st => st.order)
          [⟨"cutout", "Cutout", 0, [⟨"A", 0⟩, ⟨"B", 1⟩]⟩,
            ⟨"additional_cutout", "Additional", 1,
              [⟨"Nee", 0⟩, ⟨"Ja", 1⟩]⟩]).zip [[1, 0], [0, 1]]) 1).length = 2 :=
  (predict_single_pass
    [⟨"cutout", "Cutout", 0, [⟨"A", 0⟩, ⟨"B", 1⟩]⟩,
      ⟨"additional_cutout", "Additional", 1, [⟨"Nee", 0⟩, ⟨"Ja", 1⟩]⟩]
    [[1, 0], [0, 1]] (by decide)).2.1

/-- The running maximum dominates every entry of the list it was taken
over. -/
lemma maxBySnd_le :
    ∀ (xs : List (String × ℚ)) (x : String × ℚ),
      ∀ p ∈ x :: xs, p.2 ≤ (maxBySnd x xs).2 := by
  intro xs
  induction xs with
  | nil =>
    intro x p hp
    rw [List.mem_singleton.mp hp]
    exact le_refl _
  | cons y ys ih =>
    intro x p hp
    rw [maxBySnd]
    have hhead : (if y.2 > x.2 then y else x).2 ≤
        (maxBySnd (if y.2 > x.2 then y else x) ys).2 :=
      ih _ _ (List.mem_cons_self _ _)
    have hx2 : x.2 ≤ (maxBySnd (if y.2 > x.2 then y else x) ys).2 := by
      refine le_trans ?_ hhead
      split
      · exact le_of_lt (by assumption)
      · exact le_refl _
    have hy2 : y.2 ≤ (maxBySnd (if y.2 > x.2 then y else x) ys).2 := by
      refine le_trans ?_ hhead
      split
      · exact le_refl _
      · exact le_of_not_lt (by assumption)
    rcases List.mem_cons.mp hp with h | hp'
    · rw [h]
      exact hx2
    · rcases List.mem_cons.mp hp' with h | hp''
      · rw [h]
        exact hy2
      · exact ih _ _ (List.mem_cons_of_mem _ hp'')

/-- Python's `max` keeps the current best on ties, so the entry it
returns is the first entry of the list whose score equals the maximal
score. -/
lemma maxBySnd_first :
    ∀ (xs : List (String × ℚ)) (x : String × ℚ),
      (x :: xs).find? (fun p => p.2 == (maxBySnd x xs).2) =
        some (maxBySnd x xs) := by
  intro xs
  induction xs with
  | nil =>
    intro x
    rw [maxBySnd]
    simp [List.find?]
  | cons y ys ih =>
    intro x
    by_cases hgt : y.2 > x.2
    · have hm : maxBySnd x (y :: ys) = maxBySnd y ys := by
        rw [maxBySnd, if_pos hgt]
      rw [hm]
      have hylem : y.2 ≤ (maxBySnd y ys).2 :=
        maxBySnd_le ys y y (List.mem_cons_self _ _)
      have hxlt : x.2 < (maxBySnd y ys).2 := lt_of_lt_of_le hgt hylem
      rw [List.find?_cons_of_neg _ (by simp [ne_of_lt hxlt]), ih y]
    · have hm : maxBySnd x (y :: ys) = maxBySnd x ys := by
        rw [maxBySnd, if_neg hgt]
      rw [hm]
      have hxle : x.2 ≤ (maxBySnd x ys).2 :=
        maxBySnd_le ys x x (List.mem_cons_self _ _)
      by_cases hx : x.2 = (maxBySnd x ys).2
      · have hxm : x = maxBySnd x ys := by
          have h1 := ih x
          rw [List.find?_cons_of_pos _ (by simp [hx])] at h1
          exact Option.some.inj h1
        rw [List.find?_cons_of_pos _ (by simp [hx])]
        exact congrArg some hxm
      · have hxlt : x.2 < (maxBySnd x ys).2 := lt_of_le_of_ne hxle hx
        have hylt : y.2 < (maxBySnd x ys).2 :=
          lt_of_le_of_lt (le_of_not_lt hgt) hxlt
        have h1 := ih x
        rw [List.find?_cons_of_neg _ (by simp [hx])] at h1
        rw [List.find?_cons_of_neg _ (by simp [hx]),
          List.find?_cons_of_neg _ (by simp [ne_of_lt hylt])]
        exact h1

/-- C10: `suggest_category` is a total function (it never raises): on an
empty score map from `analyze_svg` it returns `(none, 0)`, and on a
non-empty score map it returns a category achieving the maximal score
together with that score, the tie going to the first maximal entry in
map iteration order. -/
theorem suggest_category_total_spec (detection : Except String ShapeCounts)
    (categoryNames : List String) :
    (analyze_svg detection categoryNames = [] →
      suggest_category detection categoryNames = (none, 0)) ∧
    (∀ x xs, analyze_svg detection categoryNames = x :: xs →
      ∃ c q, suggest_category detection categoryNames = (some c, q) ∧
        (∀ p ∈ x :: xs, p.2 ≤ q) ∧
        (x :: xs).find? (fun p => p.2 == q) = some (c, q)) := by
  constructor
  · intro h
    simp [suggest_category, h]
  · intro x xs h
    refine ⟨(maxBySnd x xs).1, (maxBySnd x xs).2, ?_, maxBySnd_le xs x, ?_⟩
    · simp [suggest_category, h]
    · exact maxBySnd_first xs x

/-- Witness for C10 at a concrete input: on one `other`-bucket shape,
the categories `round` and `square` both score `0`; the suggestion is
the tied first entry `round` with confidence `0`. -/
theorem suggest_category_total_spec_witness :
    ∃ c q,
      suggest_category (Except.ok ⟨0, 0, 0, 1⟩) ["round", "square"] =
        (some c, q) ∧
      (∀ p ∈ [("round", (0 : ℚ)), ("square", 0)], p.2 ≤ q) ∧
      ([("round", (0 : ℚ)), ("square", 0)]).find? (fun p => p.2 == q) =
        some (c, q) :=
  (suggest_category_total_spec (Except.ok ⟨0, 0, 0, 1⟩) ["round", "square"]).2
    ("round", 0) [("square", 0)] (by decide)

end Theorems
